import Mathlib

/-!
Verification of the Sequential Address Allocator of the guacamole IP
management repository.

The embedding models the service layer of `ip.service.ts`
(`createBulkGuacamoleIPs`, `updateGuacamoleUserAvailableIP`, `nextIp`,
`parseIp`, `ipToString`, `findStartBase`), the request validator
(`createGuacamoleUserAvailableIPSchema`) and the controller
(`createGuacamoleUserAvailableIPs`).  The persistence store is modelled
as a list of rows in id order: appending a row models `create` with the
next auto-increment id, `List.head?` models `findFirst` ordered by id
ascending, `List.getLast?` models `findFirst` ordered by id descending.
A `prisma.$transaction` block is modelled by running the body as a pure
state-passing function returning `Except`; an `error` result means the
transaction was rolled back, so the observable storage is the input
storage unchanged.
-/

deriving instance DecidableEq for Except

namespace GuacAlloc

/-- A persisted row of the `guacamole_user_available_ip` table.  The
`gateway` column is optional in the schema (the frontend reads
`row.gateway?` from fetched rows); the bulk-create service never writes
it, so rows it creates carry `none`.  The `is_available_user` column is
numeric in the source (`0` encodes false / unavailable). -/
structure GuacRow where
  ip : String
  group_name : String
  is_available_user : Nat
  gateway : Option String
  deriving Repr, DecidableEq

/-- The shape selected and returned by the services:
`select: { ip: true, group_name: true }`. -/
structure GuacIp where
  ip : String
  group_name : String
  deriving Repr, DecidableEq

/-- One allocation entry of a bulk-create request.  The service layer
reads only `amount` and `group`; the validator and controller also use
`firstIp` and `gateway` (the validator requires `gateway`, hence the
option models requests both before and after validation). -/
structure AllocEntry where
  amount : Nat
  group : String
  firstIp : Option String
  gateway : Option String
  deriving Repr, DecidableEq

/-- One item of a bulk update request (interface `IncomingData`). -/
structure IncomingData where
  old_ip : String
  new_ip : String
  old_group : String
  new_group : String
  deriving Repr, DecidableEq

/-- The body of a bulk-create request:
`{ count, allocations, ips? }`. -/
structure CreateRequest where
  count : Nat
  allocations : List AllocEntry
  ips : Option (List String)
  deriving Repr, DecidableEq

/-- Errors raised by the services and controller.  The source throws
`Error` values with message templates; each constructor models one
template: `validation` the input-validation failures (zod issues and the
pre-transaction checks of the service), `conflict` the message
`Requested ip ... already exists in database`, `notFound` the message
`Row not found for ip=... group=...`.  `internal` models the two
situations the source cannot complete normally: an out-of-range read of
the explicit ips array (unreachable when the ips length equals the sum
of amounts) and the unbounded while-loop never finding a free address
(impossible while fewer than 2^32 addresses are occupied). -/
inductive SvcError where
  | validation (msg : String)
  | conflict (ip : String)
  | notFound (ip : String) (group : String)
  | internal
  deriving Repr, DecidableEq

/-! ## String and number primitives

The JS source manipulates addresses as strings via
`String.prototype.split`, `Array.prototype.join` and `Number`.  These
are modelled by structurally recursive functions over the character
lists of Lean strings so that every definition evaluates inside the
kernel. -/

/-- Split a character list at the dot character, as
`"...".split(".")` does. -/
def splitOnDotAux : List Char → List Char → List (List Char)
  | [], acc => [acc.reverse]
  | c :: cs, acc =>
    if c = '.' then acc.reverse :: splitOnDotAux cs []
    else splitOnDotAux cs (c :: acc)

/-- Model of `s.split(".")`. -/
def splitOnDot (s : String) : List String :=
  (splitOnDotAux s.data []).map String.mk

/-- Whether a character is a decimal digit. -/
def isDigitCh (c : Char) : Bool := 48 ≤ c.toNat && c.toNat ≤ 57

/-- Value of a decimal digit string. -/
def digitsVal (cs : List Char) : Nat :=
  cs.foldl (fun a c => 10 * a + (c.toNat - 48)) 0

/-- Model of the JS `Number` coercion for the strings this application
feeds it: the empty string coerces to `0`, a string of decimal digits to
its value, anything else to NaN, modelled as `none`. -/
def jsNumber (s : String) : Option Nat :=
  if s.data.isEmpty then some 0
  else if s.data.all isDigitCh then some (digitsVal s.data) else none

/-- The decimal digit character for a value below 10. -/
def digitCh (n : Nat) : Char :=
  match n with
  | 0 => '0' | 1 => '1' | 2 => '2' | 3 => '3' | 4 => '4'
  | 5 => '5' | 6 => '6' | 7 => '7' | 8 => '8' | _ => '9'

/-- Digits of a natural number, most significant first; the first
argument is fuel, always called with fuel above the number. -/
def natDigitsAux : Nat → Nat → List Char
  | 0, _ => []
  | fuel + 1, n =>
    if n < 10 then [digitCh n]
    else natDigitsAux fuel (n / 10) ++ [digitCh (n % 10)]

/-- Decimal rendering of a natural number, as JS `String(n)` for the
non-negative integers this application renders. -/
def natToStr (n : Nat) : String := String.mk (natDigitsAux (n + 1) n)

/-- Model of `parts.join(".")`. -/
def joinDots : List String → String
  | [] => ""
  | [s] => s
  | s :: rest => s ++ "." ++ joinDots rest

/-! ## IP arithmetic (`parseIp`, `ipToString`, `nextIp` of the service) -/

/-- Embeds `parseIp`: `ip.split(".").map((p) => Number(p))`.  A `none`
entry models a NaN produced by `Number` on a non-numeric part. -/
def parseIp (ip : String) : List (Option Nat) :=
  (splitOnDot ip).map jsNumber

/-- Embeds `ipToString`: `parts.join(".")`; JS renders NaN as the string
NaN. -/
def ipToString (parts : List (Option Nat)) : String :=
  joinDots (parts.map (fun x => match x with | some n => natToStr n | none => "NaN"))

/-- The incremented octet, `p[i] += 1`; NaN propagates. -/
def bumpOct (x : Option Nat) : Option Nat := x.map (fun n => n + 1)

/-- The loop guard `p[i] <= 255` applied after the increment; the JS
comparison is false on NaN. -/
def bumpLe255 (x : Option Nat) : Bool :=
  match x with
  | some n => n + 1 ≤ 255
  | none => false

/-- Embeds the body of `nextIp`: the loop `for (let i = 3; i >= 0; i--)
{ p[i] += 1; if (p[i] <= 255) break; p[i] = 0; }` unrolled over the
four indices it touches.  The application only ever feeds it four-octet
lists; on other shapes the parts are returned unchanged. -/
def nextOctets : List (Option Nat) → List (Option Nat)
  | [a, b, c, d] =>
    if bumpLe255 d then [a, b, c, bumpOct d]
    else if bumpLe255 c then [a, b, bumpOct c, some 0]
    else if bumpLe255 b then [a, bumpOct b, some 0, some 0]
    else if bumpLe255 a then [bumpOct a, some 0, some 0, some 0]
    else [some 0, some 0, some 0, some 0]
  | parts => parts

/-- Embeds `nextIp`: parse, increment with carry, render. -/
def nextIp (ip : String) : String :=
  ipToString (nextOctets (parseIp ip))

/-! ## Storage helpers of the service -/

/-- The existence check `findFirst({ where: { ip } })`. -/
def findFirstIp (db : List GuacRow) (ip : String) : Option GuacRow :=
  db.find? (fun r => r.ip == ip)

/-- Embeds `findStartBase`: read the earliest row (`findFirst` ordered
by id ascending), and when its ip parses to four integer octets, keep
the first three and set the last octet to 1; otherwise fall back to the
constant base.  The guard `parts.length === 4 &&
parts.every(Number.isInteger)` is the four-some pattern below. -/
def findStartBase (db : List GuacRow) : String :=
  match db.head? with
  | some row =>
    match parseIp row.ip with
    | [some a, some b, some c, some _] =>
      joinDots [natToStr a, natToStr b, natToStr c, natToStr 1]
    | _ => "100.101.102.1"
  | none => "100.101.102.1"

/-- The starting cursor of the bulk create:
`latest?.ip ?? (await findStartBase())` where `latest` is `findFirst`
ordered by id descending. -/
def startCursor (db : List GuacRow) : String :=
  match db.getLast? with
  | some r => r.ip
  | none => findStartBase db

/-- Fuel bound for the free-address scan: the while-loop of the source
visits pairwise distinct addresses until it wraps around the whole
32-bit space, so it finds a free address within 2^32 steps whenever one
exists at all. -/
def ipFuel : Nat := 4294967296

/-- Embeds the `while (true)` scan: advance `current` with `nextIp`
until an address not present in storage is reached.  `none` models the
loop never terminating (storage occupies the entire address space). -/
def findFree (db : List GuacRow) : Nat → String → Option String
  | 0, _ => none
  | fuel + 1, cur =>
    if (findFirstIp db cur).isSome then findFree db fuel (nextIp cur)
    else some cur

/-! ## The bulk create service (`createBulkGuacamoleIPs`) -/

/-- The unit sequence of the two nested `for` loops: one copy of each
allocation entry per requested unit, in entry order (`alloc.amount || 0`
iterations of the inner loop for each entry). -/
def unitsOf (allocations : List AllocEntry) : List AllocEntry :=
  allocations.flatMap (fun a => List.replicate a.amount a)

/-- The row inserted for one produced address: `create({ data: { ip:
candidate, group_name: alloc.group, is_available_user: 0 } })`.  No
gateway is written, so the optional gateway column stays `none`. -/
def insertedRow (candidate : String) (u : AllocEntry) : GuacRow :=
  { ip := candidate, group_name := u.group, is_available_user := 0, gateway := none }

/-- The transaction body of `createBulkGuacamoleIPs`, iterating the unit
sequence.  State threaded through: the transaction-local storage `db`,
the accumulated `created` list, the synthesis cursor `cur`, and in
explicit mode the not-yet-consumed suffix of the ips array.  Explicit
mode checks the candidate and throws the conflict error naming it;
synthesis mode advances the cursor past occupied addresses. -/
def bulkLoop :
    List GuacRow → List GuacIp → String → Option (List String) →
    List AllocEntry → Except SvcError (List GuacRow × List GuacIp)
  | db, created, _, _, [] => .ok (db, created)
  | db, created, cur, some ipsLeft, u :: us =>
    match ipsLeft with
    | [] => .error .internal
    | candidate :: rest =>
      if (findFirstIp db candidate).isSome then
        .error (.conflict candidate)
      else
        bulkLoop (db ++ [insertedRow candidate u])
          (created ++ [⟨candidate, u.group⟩]) cur (some rest) us
  | db, created, cur, none, u :: us =>
    match findFree db ipFuel cur with
    | none => .error .internal
    | some candidate =>
      bulkLoop (db ++ [insertedRow candidate u])
        (created ++ [⟨candidate, u.group⟩]) (nextIp candidate) none us

/-- Embeds `createBulkGuacamoleIPs(allocations, total, ips?)`.  The two
checks before the transaction are `total` positivity (the non-integer
and negative cases of `!Number.isInteger(total) || total <= 0` are
excluded by the `Nat` type) and, when ips is provided, its length
matching `total`.  The transaction body starts its cursor from the
latest stored ip, falling back to `findStartBase`, and runs the nested
loops over the allocation entries. -/
def createBulkGuacamoleIPs (db : List GuacRow) (allocations : List AllocEntry)
    (total : Nat) (ips : Option (List String)) :
    Except SvcError (List GuacRow × List GuacIp) :=
  if total = 0 then .error (.validation "total must be integer > 0")
  else
    match ips with
    | some l =>
      if l.length ≠ total then
        .error (.validation "ips array length must equal total when provided")
      else bulkLoop db [] (startCursor db) (some l) (unitsOf allocations)
    | none => bulkLoop db [] (startCursor db) none (unitsOf allocations)

/-- Observable storage after a bulk create call: the committed
transaction-local storage on success, the unchanged input storage on
any error (transaction rollback). -/
def storageAfterCreate (db : List GuacRow) (allocations : List AllocEntry)
    (total : Nat) (ips : Option (List String)) : List GuacRow :=
  match createBulkGuacamoleIPs db allocations total ips with
  | .ok (db2, _) => db2
  | .error _ => db

/-! ## The bulk update service (`updateGuacamoleUserAvailableIP`) -/

/-- One item step inside the update transaction: `findFirst({ where: {
ip: old_ip, group_name: old_group }, select: { id } })` followed by
`update({ where: { id }, data: { ip: new_ip, group_name: new_group } })`.
In the list model the id of a row is its position, so the step rewrites
the first matching row in place, returning the selected
`{ ip, group_name }` of the updated row; `none` models the row not being
found. -/
def applyUpdate : List GuacRow → IncomingData → Option (GuacIp × List GuacRow)
  | [], _ => none
  | r :: rs, item =>
    if r.ip == item.old_ip && r.group_name == item.old_group then
      some (⟨item.new_ip, item.new_group⟩,
        { r with ip := item.new_ip, group_name := item.new_group } :: rs)
    else
      match applyUpdate rs item with
      | none => none
      | some (u, rs2) => some (u, r :: rs2)

/-- The transaction body of the update service: process the items in
order, throwing the not-found error naming the ip and group of the
first item whose old pair matches no row of the transaction-local
storage. -/
def updateLoop :
    List GuacRow → List GuacIp → List IncomingData →
    Except SvcError (List GuacRow × List GuacIp)
  | db, updated, [] => .ok (db, updated)
  | db, updated, item :: rest =>
    match applyUpdate db item with
    | none => .error (.notFound item.old_ip item.old_group)
    | some (u, db2) => updateLoop db2 (updated ++ [u]) rest

/-- Embeds `updateGuacamoleUserAvailableIP(data)`: the whole loop runs
inside one transaction and returns the updated records in input
order. -/
def updateGuacamoleUserAvailableIP (db : List GuacRow) (data : List IncomingData) :
    Except SvcError (List GuacRow × List GuacIp) :=
  updateLoop db [] data

/-- Observable storage after a bulk update call (transaction rollback
on error). -/
def storageAfterUpdate (db : List GuacRow) (data : List IncomingData) : List GuacRow :=
  match updateGuacamoleUserAvailableIP db data with
  | .ok (db2, _) => db2
  | .error _ => db

/-! ## The request validator (`createGuacamoleUserAvailableIPSchema`)
and the controller (`createGuacamoleUserAvailableIPs`) -/

/-- Model of `z.ipv4()`: four dot-separated parts, each the canonical
decimal rendering of an octet value at most 255 (the zod pattern admits
no leading zeros and no empty parts, which the canonical-rendering
equation enforces). -/
def isIpv4 (s : String) : Bool :=
  let parts := splitOnDot s
  parts.length == 4 &&
    parts.all (fun p =>
      match jsNumber p with
      | some n => decide (n ≤ 255) && natToStr n == p
      | none => false)

/-- Embeds the sum `(allocations ?? []).reduce((s, a) => s + (Number(a.amount) || 0), 0)`. -/
def sumAmounts (allocations : List AllocEntry) : Nat :=
  allocations.foldl (fun s a => s + a.amount) 0

/-- The base object checks of the create schema: `count` a positive
integer, `allocations` a non-empty array whose entries have a valid
optional `firstIp` and a required valid `gateway`, and `ips`, when
present, an array of valid addresses.  Integrality and non-negativity
of the numeric fields are carried by the `Nat` type. -/
def createBaseOk (r : CreateRequest) : Bool :=
  decide (1 ≤ r.count) &&
  !r.allocations.isEmpty &&
  r.allocations.all (fun a =>
    (match a.firstIp with | some s => isIpv4 s | none => true) &&
    (match a.gateway with | some s => isIpv4 s | none => false)) &&
  (match r.ips with | some l => l.all isIpv4 | none => true)

/-- The `superRefine` issues of the create schema: the amount sum must
equal `count`; a provided ips array must have length `count` and no
duplicates; without an ips array every allocation must carry a
`firstIp`. -/
def createRefineIssues (r : CreateRequest) : List String :=
  (if sumAmounts r.allocations ≠ r.count then
    ["Sum of allocations must equal count."] else []) ++
  (match r.ips with
   | some l =>
     (if l.length ≠ r.count then ["ips length must equal count."] else []) ++
     (if l.Nodup then [] else ["ips array must not contain duplicate addresses."])
   | none =>
     if r.allocations.any (fun a => a.firstIp.isNone) then
       ["Provide ips or per-allocation firstIp for all allocations."] else [])

/-- Whether `safeParse` succeeds on a create request: the base schema
accepts it and the refinement raises no issue. -/
def createParseOk (r : CreateRequest) : Bool :=
  createBaseOk r && (createRefineIssues r).isEmpty

/-- The server-side generation loop of the controller for one
allocation entry: starting from the parsed `firstIp`, push the current
address, then apply the inline carry increment, `amount` times.  The
inline loop `for (let j = 3; j >= 0; j--) { curr[j] = (curr[j] ?? 0) +
1; ... }` coincides with `nextOctets` on the four-octet arrays the
validated `firstIp` parses to. -/
def genIpsAux : Nat → List (Option Nat) → List String
  | 0, _ => []
  | n + 1, cur => ipToString cur :: genIpsAux n (nextOctets cur)

/-- The full generated address list `ipsToUse` of the controller, one
run per allocation entry from its own `firstIp` (the non-null assertion
`a.firstIp!` is sound after validation; the default covers the
unreachable absent case). -/
def ipsToUse (allocations : List AllocEntry) : List String :=
  allocations.flatMap (fun a => genIpsAux a.amount (parseIp (a.firstIp.getD "")))

/-- Embeds the controller `createGuacamoleUserAvailableIPs`: validate
the body with the create schema (a failure answers 400 before any
storage access); then, when a non-empty explicit ips array is given,
pass it through to the bulk service, and otherwise generate the
addresses per allocation entry from `firstIp` and pass those. -/
def createGuacamoleUserAvailableIPs (db : List GuacRow) (req : CreateRequest) :
    Except SvcError (List GuacRow × List GuacIp) :=
  if createParseOk req then
    match req.ips with
    | some (c :: rest) =>
      createBulkGuacamoleIPs db req.allocations req.count (some (c :: rest))
    | _ =>
      createBulkGuacamoleIPs db req.allocations req.count
        (some (ipsToUse req.allocations))
  else .error (.validation "Invalid input data")

/-- Observable storage after a controller create call: unchanged on
validation failure (no service call) and on service error (rollback);
the committed storage on success. -/
def storageAfterController (db : List GuacRow) (req : CreateRequest) : List GuacRow :=
  match createGuacamoleUserAvailableIPs db req with
  | .ok (db2, _) => db2
  | .error _ => db

/-- Spec-side value of a four-octet tuple in base 256, used to state
that the successor function is the standard base-256 four-digit
increment. -/
def octetsVal (a b c d : Nat) : Nat :=
  ((a * 256 + b) * 256 + c) * 256 + d

/-! ## Helper lemmas -/

lemma findFirstIp_isSome_iff (db : List GuacRow) (a : String) :
    (findFirstIp db a).isSome = true ↔ a ∈ db.map GuacRow.ip := by
  induction db with
  | nil => simp [findFirstIp]
  | cons r rs ih =>
    by_cases hr : r.ip = a
    · simp [findFirstIp, List.find?, hr]
    · have hne : (r.ip == a) = false := by
        simp [hr]
      simp only [findFirstIp, List.find?, hne, List.map_cons, List.mem_cons]
      rw [findFirstIp] at ih
      rw [ih]
      constructor
      · exact fun h => Or.inr h
      · rintro (h | h)
        · exact absurd h.symm hr
        · exact h

lemma findFree_sound (db : List GuacRow) :
    ∀ fuel cur c, findFree db fuel cur = some c →
      (findFirstIp db c).isSome = false := by
  intro fuel
  induction fuel with
  | zero => intro cur c h; simp [findFree] at h
  | succ n ih =>
    intro cur c h
    rw [findFree] at h
    by_cases hocc : (findFirstIp db cur).isSome = true
    · rw [if_pos hocc] at h
      exact ih (nextIp cur) c h
    · rw [if_neg hocc] at h
      cases h
      simpa using hocc

lemma zipPair_map_ip :
    ∀ (cands : List String) (us : List AllocEntry), cands.length = us.length →
      (List.zipWith (fun c u => (⟨c, u.group⟩ : GuacIp)) cands us).map GuacIp.ip
        = cands := by
  intro cands
  induction cands with
  | nil => intro us _; simp
  | cons c cs ih =>
    intro us hlen
    cases us with
    | nil => simp at hlen
    | cons u us' =>
      simp only [List.zipWith_cons_cons, List.map_cons, List.length_cons] at *
      exact congrArg (List.cons c) (ih us' (by omega))

lemma zipPair_map_group :
    ∀ (cands : List String) (us : List AllocEntry), cands.length = us.length →
      (List.zipWith (fun c u => (⟨c, u.group⟩ : GuacIp)) cands us).map GuacIp.group_name
        = us.map AllocEntry.group := by
  intro cands
  induction cands with
  | nil => intro us hlen; cases us with
    | nil => simp
    | cons u us' => simp at hlen
  | cons c cs ih =>
    intro us hlen
    cases us with
    | nil => simp at hlen
    | cons u us' =>
      simp only [List.zipWith_cons_cons, List.map_cons, List.length_cons] at *
      exact congrArg (List.cons u.group) (ih us' (by omega))

lemma zipPair_enrich :
    ∀ (cands : List String) (us : List AllocEntry),
      (List.zipWith (fun c u => (⟨c, u.group⟩ : GuacIp)) cands us).map
          (fun g => ({ ip := g.ip, group_name := g.group_name,
                       is_available_user := 0, gateway := none } : GuacRow))
        = List.zipWith insertedRow cands us := by
  intro cands
  induction cands with
  | nil => intro us; simp
  | cons c cs ih =>
    intro us
    cases us with
    | nil => simp
    | cons u us' =>
      simp only [List.zipWith_cons_cons, List.map_cons]
      exact congrArg (List.cons (insertedRow c u)) (ih us')

lemma foldl_amount_go (l : List AllocEntry) :
    ∀ n, List.foldl (fun s a => s + a.amount) n l
      = n + List.foldl (fun s a => s + a.amount) 0 l := by
  induction l with
  | nil => intro n; simp
  | cons a l' ih =>
    intro n
    rw [List.foldl_cons, List.foldl_cons, ih (n + a.amount), ih (0 + a.amount)]
    omega

lemma sumAmounts_cons (a : AllocEntry) (l : List AllocEntry) :
    sumAmounts (a :: l) = a.amount + sumAmounts l := by
  simp only [sumAmounts, List.foldl_cons]
  rw [foldl_amount_go l (0 + a.amount)]
  omega

lemma unitsOf_length (l : List AllocEntry) :
    (unitsOf l).length = sumAmounts l := by
  induction l with
  | nil => simp [unitsOf, sumAmounts]
  | cons a l' ih =>
    simp only [unitsOf, List.flatMap_cons, List.length_append,
      List.length_replicate] at *
    rw [ih, sumAmounts_cons]

/-- Shape of every successful transaction body run: the final storage
is the input storage plus one inserted row per unit, the created list
records exactly those rows, the candidate addresses are pairwise
distinct, and none of them was present in the input storage. -/
lemma bulkLoop_ok_shape :
    ∀ (us : List AllocEntry) (db : List GuacRow) (created : List GuacIp)
      (cur : String) (ipsRem : Option (List String))
      (db2 : List GuacRow) (created2 : List GuacIp),
      bulkLoop db created cur ipsRem us = .ok (db2, created2) →
      ∃ cands : List String,
        cands.length = us.length ∧
        db2 = db ++ List.zipWith insertedRow cands us ∧
        created2 = created
          ++ List.zipWith (fun c u => (⟨c, u.group⟩ : GuacIp)) cands us ∧
        cands.Nodup ∧
        ∀ c ∈ cands, c ∉ db.map GuacRow.ip := by
  intro us
  induction us with
  | nil =>
    intro db created cur ipsRem db2 created2 h
    simp only [bulkLoop] at h
    cases h
    exact ⟨[], rfl, by simp, by simp, List.nodup_nil, by simp⟩
  | cons u us' ih =>
    intro db created cur ipsRem db2 created2 h
    cases ipsRem with
    | some ipsLeft =>
      cases ipsLeft with
      | nil =>
        simp only [bulkLoop] at h
        simp at h
      | cons candidate rest =>
        simp only [bulkLoop] at h
        by_cases hocc : (findFirstIp db candidate).isSome = true
        · rw [if_pos hocc] at h
          simp at h
        · rw [if_neg hocc] at h
          obtain ⟨cands', hlen, hdb, hcr, hnd, hfr⟩ := ih _ _ _ _ _ _ h
          refine ⟨candidate :: cands', by simp [hlen], ?_, ?_, ?_, ?_⟩
          · rw [hdb, List.append_assoc, List.singleton_append,
              List.zipWith_cons_cons]
          · rw [hcr, List.append_assoc, List.singleton_append,
              List.zipWith_cons_cons]
          · rw [List.nodup_cons]
            refine ⟨fun hmem => ?_, hnd⟩
            have hcontra := hfr candidate hmem
            rw [List.map_append] at hcontra
            exact hcontra (List.mem_append_right _ (by simp [insertedRow]))
          · intro c hc
            rcases List.mem_cons.mp hc with hceq | hcm
            · subst hceq
              intro hmem
              exact hocc ((findFirstIp_isSome_iff db c).mpr hmem)
            · intro hmem
              refine hfr c hcm ?_
              rw [List.map_append]
              exact List.mem_append_left _ hmem
    | none =>
      simp only [bulkLoop] at h
      cases hf : findFree db ipFuel cur with
      | none => rw [hf] at h; simp at h
      | some candidate =>
        rw [hf] at h
        have hocc : (findFirstIp db candidate).isSome = false :=
          findFree_sound db ipFuel cur candidate hf
        obtain ⟨cands', hlen, hdb, hcr, hnd, hfr⟩ := ih _ _ _ _ _ _ h
        refine ⟨candidate :: cands', by simp [hlen], ?_, ?_, ?_, ?_⟩
        · rw [hdb, List.append_assoc, List.singleton_append,
            List.zipWith_cons_cons]
        · rw [hcr, List.append_assoc, List.singleton_append,
            List.zipWith_cons_cons]
        · rw [List.nodup_cons]
          refine ⟨fun hmem => ?_, hnd⟩
          have hcontra := hfr candidate hmem
          rw [List.map_append] at hcontra
          exact hcontra (List.mem_append_right _ (by simp [insertedRow]))
        · intro c hc
          rcases List.mem_cons.mp hc with hceq | hcm
          · subst hceq
            intro hmem
            rw [(findFirstIp_isSome_iff db c).mpr hmem] at hocc
            cases hocc
          · intro hmem
            refine hfr c hcm ?_
            rw [List.map_append]
            exact List.mem_append_left _ hmem

lemma createBulk_some_eq (db : List GuacRow) (allocations : List AllocEntry)
    (total : Nat) (l : List String) (h0 : total ≠ 0) (hlen : l.length = total) :
    createBulkGuacamoleIPs db allocations total (some l)
      = bulkLoop db [] (startCursor db) (some l) (unitsOf allocations) := by
  unfold createBulkGuacamoleIPs
  rw [if_neg h0]
  simp [hlen]

lemma createBulk_none_eq (db : List GuacRow) (allocations : List AllocEntry)
    (total : Nat) (h0 : total ≠ 0) :
    createBulkGuacamoleIPs db allocations total none
      = bulkLoop db [] (startCursor db) none (unitsOf allocations) := by
  unfold createBulkGuacamoleIPs
  rw [if_neg h0]

lemma createBulk_ok_bulkLoop (db : List GuacRow) (allocations : List AllocEntry)
    (total : Nat) (ips : Option (List String)) (db2 : List GuacRow)
    (rows : List GuacIp)
    (h : createBulkGuacamoleIPs db allocations total ips = .ok (db2, rows)) :
    bulkLoop db [] (startCursor db) ips (unitsOf allocations) = .ok (db2, rows) := by
  by_cases h0 : total = 0
  · rw [h0] at h
    simp [createBulkGuacamoleIPs] at h
  · cases ips with
    | none => rwa [createBulk_none_eq db allocations total h0] at h
    | some l =>
      by_cases hl : l.length = total
      · rwa [createBulk_some_eq db allocations total l h0 hl] at h
      · exfalso
        unfold createBulkGuacamoleIPs at h
        rw [if_neg h0] at h
        simp only at h
        rw [if_pos hl] at h
        simp at h

/-- Claim C1: for every successful allocate call, the address-uniqueness
invariant holds afterwards: no two rows among the rows created by the
call share an address, and no created row shares an address with any
row that existed in storage before the call. -/
theorem claim1_allocate_unique (db : List GuacRow) (allocations : List AllocEntry)
    (total : Nat) (ips : Option (List String)) (db2 : List GuacRow)
    (rows : List GuacIp)
    (h : createBulkGuacamoleIPs db allocations total ips = .ok (db2, rows)) :
    (rows.map GuacIp.ip).Nodup ∧
    ∀ a ∈ rows.map GuacIp.ip, a ∉ db.map GuacRow.ip := by
  have hb := createBulk_ok_bulkLoop db allocations total ips db2 rows h
  obtain ⟨cands, hlen, _, hcreq, hnd, hfr⟩ :=
    bulkLoop_ok_shape (unitsOf allocations) db [] (startCursor db) ips db2 rows hb
  have hmap : rows.map GuacIp.ip = cands := by
    rw [hcreq, List.nil_append]
    exact zipPair_map_ip cands (unitsOf allocations) hlen
  rw [hmap]
  exact ⟨hnd, hfr⟩

/-- Claim C1 witness: a concrete successful two-unit explicit call from
empty storage. -/
theorem claim1_witness :
    (([⟨"10.0.0.1", "g"⟩, ⟨"10.0.0.2", "g"⟩] : List GuacIp).map GuacIp.ip).Nodup ∧
    ∀ a ∈ ([⟨"10.0.0.1", "g"⟩, ⟨"10.0.0.2", "g"⟩] : List GuacIp).map GuacIp.ip,
      a ∉ ([] : List GuacRow).map GuacRow.ip :=
  claim1_allocate_unique [] [⟨2, "g", none, none⟩] 2
    (some ["10.0.0.1", "10.0.0.2"])
    [⟨"10.0.0.1", "g", 0, none⟩, ⟨"10.0.0.2", "g", 0, none⟩]
    [⟨"10.0.0.1", "g"⟩, ⟨"10.0.0.2", "g"⟩] (by decide)

/-- Claim C2: all row insertions of one allocate call happen inside a
single atomic transaction: any failure after the transaction has begun
(or before) leaves the observable storage exactly as it was, and on
success the observable storage is the old storage plus exactly the
created rows, committed in order. -/
theorem claim2_transaction_atomic (db : List GuacRow)
    (allocations : List AllocEntry) (total : Nat) (ips : Option (List String)) :
    (∀ e, createBulkGuacamoleIPs db allocations total ips = .error e →
       storageAfterCreate db allocations total ips = db) ∧
    (∀ db2 rows, createBulkGuacamoleIPs db allocations total ips = .ok (db2, rows) →
       storageAfterCreate db allocations total ips
         = db ++ rows.map (fun g =>
             ({ ip := g.ip, group_name := g.group_name,
                is_available_user := 0, gateway := none } : GuacRow))) := by
  constructor
  · intro e he
    unfold storageAfterCreate
    rw [he]
  · intro db2 rows hok
    unfold storageAfterCreate
    rw [hok]
    have hb := createBulk_ok_bulkLoop db allocations total ips db2 rows hok
    obtain ⟨cands, _, hdbeq, hcreq, _, _⟩ :=
      bulkLoop_ok_shape (unitsOf allocations) db [] (startCursor db) ips db2 rows hb
    rw [hdbeq, hcreq, List.nil_append, zipPair_enrich]

/-- Claim C2 witness: the rollback direction at a failing concrete call
(zero total) and commit direction at a successful one. -/
theorem claim2_witness :
    storageAfterCreate [] [⟨1, "g", none, none⟩] 1 (some ["10.0.0.9"])
      = [] ++ ([⟨"10.0.0.9", "g"⟩] : List GuacIp).map (fun g =>
          ({ ip := g.ip, group_name := g.group_name,
             is_available_user := 0, gateway := none } : GuacRow)) :=
  (claim2_transaction_atomic [] [⟨1, "g", none, none⟩] 1 (some ["10.0.0.9"])).2
    [⟨"10.0.0.9", "g", 0, none⟩] [⟨"10.0.0.9", "g"⟩] (by decide)

/-- Pointwise equal predicates find the same first element. -/
lemma find?_congr {A : Type} (l : List A) (p q : A → Bool)
    (h : ∀ x ∈ l, p x = q x) : l.find? p = l.find? q := by
  induction l with
  | nil => rfl
  | cons x xs ih =>
    have hx := h x (List.mem_cons_self x xs)
    by_cases hp : p x = true
    · rw [List.find?_cons_of_pos xs hp, List.find?_cons_of_pos xs (hx ▸ hp)]
    · rw [List.find?_cons_of_neg xs hp,
        List.find?_cons_of_neg xs (by rw [← hx]; exact hp)]
      exact ih (fun y hy => h y (List.mem_cons_of_mem x hy))

/-- In explicit mode with a duplicate-free ips list, the transaction
body fails with the conflict error naming the first consumed address
already present in the initial storage: the addresses before it are
absent from storage and, being pairwise distinct, never collide with
the rows inserted earlier in the same call, so they insert cleanly
until the offending address is checked. -/
lemma bulkLoop_explicit_first_conflict :
    ∀ (us : List AllocEntry) (db : List GuacRow) (created : List GuacIp)
      (cur : String) (ips : List String) (c : String),
      ips.Nodup →
      (ips.take us.length).find? (fun b => (findFirstIp db b).isSome) = some c →
      bulkLoop db created cur (some ips) us = .error (.conflict c) := by
  intro us
  induction us with
  | nil =>
    intro db created cur ips c _ hfind
    simp at hfind
  | cons u us' ih =>
    intro db created cur ips c hnd hfind
    cases ips with
    | nil => simp at hfind
    | cons b rest =>
      rw [List.length_cons, List.take_succ_cons] at hfind
      simp only [bulkLoop]
      by_cases hb : (findFirstIp db b).isSome = true
      · have hstep : (b :: rest.take us'.length).find?
            (fun x => (findFirstIp db x).isSome) = some b :=
          List.find?_cons_of_pos _ hb
        rw [hstep, Option.some.injEq] at hfind
        rw [if_pos hb, hfind]
      · have hstep : (b :: rest.take us'.length).find?
            (fun x => (findFirstIp db x).isSome)
            = (rest.take us'.length).find? (fun x => (findFirstIp db x).isSome) :=
          List.find?_cons_of_neg _ hb
        rw [hstep] at hfind
        rw [if_neg hb]
        apply ih _ _ cur rest c (List.nodup_cons.mp hnd).2
        have hpt : ∀ x ∈ rest.take us'.length,
            ((findFirstIp db x).isSome : Bool)
              = ((findFirstIp (db ++ [insertedRow b u]) x).isSome : Bool) := by
          intro x hx
          have hxr : x ∈ rest := List.take_subset _ _ hx
          have hxb : x ≠ b := by
            intro he
            subst he
            exact (List.nodup_cons.mp hnd).1 hxr
          by_cases hmem : x ∈ db.map GuacRow.ip
          · rw [(findFirstIp_isSome_iff db x).mpr hmem]
            have hmm : x ∈ (db ++ [insertedRow b u]).map GuacRow.ip := by
              rw [List.map_append]
              exact List.mem_append_left _ hmem
            rw [(findFirstIp_isSome_iff _ x).mpr hmm]
          · have h1 : (findFirstIp db x).isSome = false := by
              cases hh : (findFirstIp db x).isSome
              · rfl
              · exact absurd ((findFirstIp_isSome_iff db x).mp hh) hmem
            have h2 : (findFirstIp (db ++ [insertedRow b u]) x).isSome = false := by
              cases hh : (findFirstIp (db ++ [insertedRow b u]) x).isSome
              · rfl
              · exfalso
                have hmm := (findFirstIp_isSome_iff _ x).mp hh
                rw [List.map_append] at hmm
                rcases List.mem_append.mp hmm with h3 | h3
                · exact hmem h3
                · simp [insertedRow] at h3
                  exact hxb h3
            rw [h1, h2]
        rw [← find?_congr (rest.take us'.length) _ _ hpt]
        exact hfind

/-- Claim C5: in explicit mode, whenever any caller-supplied address in
the consumed prefix of the duplicate-free ips list (the validator
rejects duplicate lists) already exists in storage — one or several
such collisions — the allocate call fails with the conflict error
naming the offending address, namely the first consumed address present
in storage, and no rows from the call are persisted, even for addresses
earlier in the list that were not conflicting. -/
theorem claim5_explicit_conflict (db : List GuacRow)
    (allocations : List AllocEntry) (total : Nat) (ips : List String)
    (a : String) (h0 : 0 < total) (hlen : ips.length = total)
    (hnd : ips.Nodup) (ha : a ∈ ips.take (sumAmounts allocations))
    (hdb : a ∈ db.map GuacRow.ip) :
    ∃ c, (ips.take (sumAmounts allocations)).find?
           (fun b => (findFirstIp db b).isSome) = some c ∧
      createBulkGuacamoleIPs db allocations total (some ips)
        = .error (.conflict c) ∧
      storageAfterCreate db allocations total (some ips) = db := by
  have hex : ∃ x, x ∈ ips.take (sumAmounts allocations) ∧
      ((findFirstIp db x).isSome = true) :=
    ⟨a, ha, (findFirstIp_isSome_iff db a).mpr hdb⟩
  have hsome := List.find?_isSome.mpr hex
  obtain ⟨c, hc⟩ := Option.isSome_iff_exists.mp hsome
  have hmain : createBulkGuacamoleIPs db allocations total (some ips)
      = .error (.conflict c) := by
    rw [createBulk_some_eq db allocations total ips (by omega) hlen]
    apply bulkLoop_explicit_first_conflict _ _ _ _ _ _ hnd
    rw [unitsOf_length]
    exact hc
  refine ⟨c, hc, hmain, ?_⟩
  unfold storageAfterCreate
  rw [hmain]

/-- Claim C5 witness: the concrete scenario of the spec, storage
containing 10.0.0.5 and an explicit list whose second address is
10.0.0.5. -/
theorem claim5_witness :
    ∃ c, ((["10.0.0.4", "10.0.0.5"].take
            (sumAmounts [⟨2, "g", none, none⟩])).find?
           (fun b => (findFirstIp [⟨"10.0.0.5", "g", 0, none⟩] b).isSome))
          = some c ∧
      createBulkGuacamoleIPs [⟨"10.0.0.5", "g", 0, none⟩]
          [⟨2, "g", none, none⟩] 2 (some ["10.0.0.4", "10.0.0.5"])
        = .error (.conflict c) ∧
      storageAfterCreate [⟨"10.0.0.5", "g", 0, none⟩] [⟨2, "g", none, none⟩] 2
          (some ["10.0.0.4", "10.0.0.5"]) = [⟨"10.0.0.5", "g", 0, none⟩] :=
  claim5_explicit_conflict [⟨"10.0.0.5", "g", 0, none⟩] [⟨2, "g", none, none⟩] 2
    ["10.0.0.4", "10.0.0.5"] "10.0.0.5" (by decide) (by decide) (by decide)
    (by decide) (by decide)

/-- Claim C6: for every request in which the sum of the entry amounts
differs from the count, the create schema rejects the body, so the
controller fails with the validation error before any storage access,
and the observable storage is unchanged. -/
theorem claim6_sum_mismatch (db : List GuacRow) (req : CreateRequest)
    (h : sumAmounts req.allocations ≠ req.count) :
    createParseOk req = false ∧
    createGuacamoleUserAvailableIPs db req
      = .error (.validation "Invalid input data") ∧
    storageAfterController db req = db := by
  have hpf : createParseOk req = false := by
    unfold createParseOk createRefineIssues
    rw [if_pos h]
    simp
  have hmain : createGuacamoleUserAvailableIPs db req
      = .error (.validation "Invalid input data") := by
    unfold createGuacamoleUserAvailableIPs
    rw [hpf]
    simp
  refine ⟨hpf, hmain, ?_⟩
  unfold storageAfterController
  rw [hmain]

/-- Claim C6 witness: a concrete request whose amounts sum to 2 while
the count is 3. -/
theorem claim6_witness :
    createParseOk ⟨3, [⟨2, "g", some "10.0.0.1", some "10.0.0.254"⟩], none⟩
      = false ∧
    createGuacamoleUserAvailableIPs []
        ⟨3, [⟨2, "g", some "10.0.0.1", some "10.0.0.254"⟩], none⟩
      = .error (.validation "Invalid input data") ∧
    storageAfterController []
        ⟨3, [⟨2, "g", some "10.0.0.1", some "10.0.0.254"⟩], none⟩ = [] :=
  claim6_sum_mismatch [] ⟨3, [⟨2, "g", some "10.0.0.1", some "10.0.0.254"⟩], none⟩
    (by decide)

/-- Claim C7: the successor function implements the standard unsigned
base-256 four-digit increment on octet quadruples, and in particular
maps 1.2.3.255 to 1.2.4.0, 1.2.255.255 to 1.3.0.0, and 0.0.0.0 to
0.0.0.1. -/
theorem claim7_successor :
    (∀ a b c d : Nat, a ≤ 255 → b ≤ 255 → c ≤ 255 → d ≤ 255 →
      ∃ a2 b2 c2 d2 : Nat,
        nextOctets [some a, some b, some c, some d]
          = [some a2, some b2, some c2, some d2] ∧
        a2 ≤ 255 ∧ b2 ≤ 255 ∧ c2 ≤ 255 ∧ d2 ≤ 255 ∧
        octetsVal a2 b2 c2 d2 = (octetsVal a b c d + 1) % 4294967296) ∧
    nextIp "1.2.3.255" = "1.2.4.0" ∧
    nextIp "1.2.255.255" = "1.3.0.0" ∧
    nextIp "0.0.0.0" = "0.0.0.1" := by
  refine ⟨?_, by decide, by decide, by decide⟩
  intro a b c d ha hb hc hd
  simp only [nextOctets, bumpLe255, bumpOct, Option.map]
  by_cases h1 : d + 1 ≤ 255
  · rw [if_pos (by simpa using h1)]
    exact ⟨a, b, c, d + 1, rfl, ha, hb, hc, h1, by unfold octetsVal; omega⟩
  · rw [if_neg (by simpa using h1)]
    by_cases h2 : c + 1 ≤ 255
    · rw [if_pos (by simpa using h2)]
      exact ⟨a, b, c + 1, 0, rfl, ha, hb, h2, by omega,
        by unfold octetsVal; omega⟩
    · rw [if_neg (by simpa using h2)]
      by_cases h3 : b + 1 ≤ 255
      · rw [if_pos (by simpa using h3)]
        exact ⟨a, b + 1, 0, 0, rfl, ha, h3, by omega, by omega,
          by unfold octetsVal; omega⟩
      · rw [if_neg (by simpa using h3)]
        by_cases h4 : a + 1 ≤ 255
        · rw [if_pos (by simpa using h4)]
          exact ⟨a + 1, 0, 0, 0, rfl, h4, by omega, by omega, by omega,
            by unfold octetsVal; omega⟩
        · rw [if_neg (by simpa using h4)]
          exact ⟨0, 0, 0, 0, rfl, by omega, by omega, by omega, by omega,
            by unfold octetsVal; omega⟩

/-- Claim C7 witness: the general increment statement applied at the
concrete quadruple 1.2.3.255. -/
theorem claim7_witness :
    ∃ a2 b2 c2 d2 : Nat,
      nextOctets [some 1, some 2, some 3, some 255]
        = [some a2, some b2, some c2, some d2] ∧
      a2 ≤ 255 ∧ b2 ≤ 255 ∧ c2 ≤ 255 ∧ d2 ≤ 255 ∧
      octetsVal a2 b2 c2 d2 = (octetsVal 1 2 3 255 + 1) % 4294967296 :=
  claim7_successor.1 1 2 3 255 (by decide) (by decide) (by decide) (by decide)

/-- Claim C9: applied to 255.255.255.255, the successor function wraps
silently around the top of the address space and returns 0.0.0.0. -/
theorem claim9_wraparound : nextIp "255.255.255.255" = "0.0.0.0" := by decide

/-- Claim C3 counterexample: with storage containing 10.0.0.1 and a
synthesis-mode request of two units starting at 10.0.0.1, the composed
controller call does not succeed with 10.0.0.2 and 10.0.0.3 as the
claim states; it fails with the conflict error naming 10.0.0.1, because
the controller generates candidate addresses from the start address
without consulting storage and the bulk service then rejects the
occupied first candidate. -/
theorem claim3_counterexample :
    createGuacamoleUserAvailableIPs [⟨"10.0.0.1", "g", 0, none⟩]
        ⟨2, [⟨2, "g", some "10.0.0.1", some "10.0.0.254"⟩], none⟩
      ≠ .ok ([⟨"10.0.0.1", "g", 0, none⟩, ⟨"10.0.0.2", "g", 0, none⟩,
              ⟨"10.0.0.3", "g", 0, none⟩],
             [⟨"10.0.0.2", "g"⟩, ⟨"10.0.0.3", "g"⟩]) := by decide

/-- Claim C3 amended: in synthesis mode, occupied addresses cause
failure rather than being skipped: with storage containing 10.0.0.1 and
a synthesis-mode request with start address 10.0.0.1, amount 2, group
g, the call fails with the conflict error naming 10.0.0.1 and no rows
are persisted. -/
theorem claim3_synthesis_conflict :
    createGuacamoleUserAvailableIPs [⟨"10.0.0.1", "g", 0, none⟩]
        ⟨2, [⟨2, "g", some "10.0.0.1", some "10.0.0.254"⟩], none⟩
      = .error (.conflict "10.0.0.1") ∧
    storageAfterController [⟨"10.0.0.1", "g", 0, none⟩]
        ⟨2, [⟨2, "g", some "10.0.0.1", some "10.0.0.254"⟩], none⟩
      = [⟨"10.0.0.1", "g", 0, none⟩] := by decide

/-- Claim C4 counterexample: with empty storage and two synthesis-mode
entries of amount 2 both starting at 10.0.0.1, the composed controller
call does not produce 10.0.0.1 through 10.0.0.4 as the claim states;
the generation phase reuses 10.0.0.1 for the second entry without
consulting the rows just inserted for the first, and the call fails
with the conflict error naming 10.0.0.1. -/
theorem claim4_counterexample :
    createGuacamoleUserAvailableIPs []
        ⟨4, [⟨2, "a", some "10.0.0.1", some "10.0.0.254"⟩,
             ⟨2, "b", some "10.0.0.1", some "10.0.0.254"⟩], none⟩
      ≠ .ok ([⟨"10.0.0.1", "a", 0, none⟩, ⟨"10.0.0.2", "a", 0, none⟩,
              ⟨"10.0.0.3", "b", 0, none⟩, ⟨"10.0.0.4", "b", 0, none⟩],
             [⟨"10.0.0.1", "a"⟩, ⟨"10.0.0.2", "a"⟩,
              ⟨"10.0.0.3", "b"⟩, ⟨"10.0.0.4", "b"⟩]) := by decide

/-- Claim C4 amended: with empty storage and two synthesis-mode entries
of amount 2 both starting at 10.0.0.1, the second entry collides with
the rows the first entry just inserted: the call fails with the
conflict error naming 10.0.0.1 and no rows at all are persisted
(all-or-nothing rollback). -/
theorem claim4_multi_entry_conflict :
    createGuacamoleUserAvailableIPs []
        ⟨4, [⟨2, "a", some "10.0.0.1", some "10.0.0.254"⟩,
             ⟨2, "b", some "10.0.0.1", some "10.0.0.254"⟩], none⟩
      = .error (.conflict "10.0.0.1") ∧
    storageAfterController []
        ⟨4, [⟨2, "a", some "10.0.0.1", some "10.0.0.254"⟩,
             ⟨2, "b", some "10.0.0.1", some "10.0.0.254"⟩], none⟩
      = [] := by decide

/-- Claim C8 counterexample: a successful one-unit call whose entry
carries gateway 9.9.9.9 stores a row whose gateway column is empty: the
bulk insert writes only ip, group and the availability flag, so the
created row does not carry the allocation entry gateway. -/
theorem claim8_counterexample :
    createGuacamoleUserAvailableIPs []
        ⟨1, [⟨1, "g", some "10.0.0.1", some "9.9.9.9"⟩], none⟩
      = .ok ([⟨"10.0.0.1", "g", 0, none⟩], [⟨"10.0.0.1", "g"⟩]) ∧
    (⟨"10.0.0.1", "g", 0, none⟩ : GuacRow).gateway
      ≠ (⟨1, "g", some "10.0.0.1", some "9.9.9.9"⟩ : AllocEntry).gateway := by
  decide

/-- Claim C8 amended: for every successful allocate call, each produced
address is inserted as a new row carrying the group of its allocation
entry (one row per requested unit, in entry order) with the
available-for-user flag 0, that is false; the gateway of the entry is
not stored, the gateway column of every created row stays empty. -/
theorem claim8_rows_shape (db : List GuacRow) (allocations : List AllocEntry)
    (total : Nat) (ips : Option (List String)) (db2 : List GuacRow)
    (rows : List GuacIp)
    (h : createBulkGuacamoleIPs db allocations total ips = .ok (db2, rows)) :
    rows.map GuacIp.group_name = (unitsOf allocations).map AllocEntry.group ∧
    db2 = db ++ rows.map (fun g =>
        ({ ip := g.ip, group_name := g.group_name,
           is_available_user := 0, gateway := none } : GuacRow)) := by
  have hb := createBulk_ok_bulkLoop db allocations total ips db2 rows h
  obtain ⟨cands, hlen, hdbeq, hcreq, _, _⟩ :=
    bulkLoop_ok_shape (unitsOf allocations) db [] (startCursor db) ips db2 rows hb
  constructor
  · rw [hcreq, List.nil_append]
    exact zipPair_map_group cands (unitsOf allocations) hlen
  · rw [hdbeq, hcreq, List.nil_append, zipPair_enrich]

/-- Claim C8 witness: the amended statement at a concrete successful
call. -/
theorem claim8_witness :
    ([⟨"10.0.0.7", "g"⟩] : List GuacIp).map GuacIp.group_name
      = (unitsOf [⟨1, "g", none, none⟩]).map AllocEntry.group ∧
    ([⟨"10.0.0.7", "g", 0, none⟩] : List GuacRow)
      = [] ++ ([⟨"10.0.0.7", "g"⟩] : List GuacIp).map (fun g =>
          ({ ip := g.ip, group_name := g.group_name,
             is_available_user := 0, gateway := none } : GuacRow)) :=
  claim8_rows_shape [] [⟨1, "g", none, none⟩] 1 (some ["10.0.0.7"])
    [⟨"10.0.0.7", "g", 0, none⟩] [⟨"10.0.0.7", "g"⟩] (by decide)

lemma applyUpdate_ok_fst :
    ∀ (db : List GuacRow) (item : IncomingData) (u : GuacIp)
      (db2 : List GuacRow),
      applyUpdate db item = some (u, db2) →
      u = ⟨item.new_ip, item.new_group⟩ := by
  intro db
  induction db with
  | nil =>
    intro item u db2 h
    simp [applyUpdate] at h
  | cons r rs ih =>
    intro item u db2 h
    simp only [applyUpdate] at h
    by_cases hb : (r.ip == item.old_ip && r.group_name == item.old_group) = true
    · rw [if_pos hb] at h
      cases h
      rfl
    · rw [if_neg hb] at h
      cases hau : applyUpdate rs item with
      | none => rw [hau] at h; simp at h
      | some p =>
        rw [hau] at h
        obtain ⟨u2, rs2⟩ := p
        rw [Option.some.injEq, Prod.mk.injEq] at h
        obtain ⟨hu2, _⟩ := h
        rw [← hu2]
        exact ih item u2 rs2 hau

lemma updateLoop_ok_shape :
    ∀ (data : List IncomingData) (db : List GuacRow) (acc : List GuacIp)
      (db2 : List GuacRow) (ups : List GuacIp),
      updateLoop db acc data = .ok (db2, ups) →
      ups = acc ++ data.map (fun it => (⟨it.new_ip, it.new_group⟩ : GuacIp)) := by
  intro data
  induction data with
  | nil =>
    intro db acc db2 ups h
    simp only [updateLoop] at h
    cases h
    simp
  | cons item rest ih =>
    intro db acc db2 ups h
    simp only [updateLoop] at h
    cases hau : applyUpdate db item with
    | none => rw [hau] at h; simp at h
    | some p =>
      rw [hau] at h
      obtain ⟨u, dbx⟩ := p
      have hu := applyUpdate_ok_fst db item u dbx hau
      have hrest := ih dbx (acc ++ [u]) db2 ups h
      rw [hrest, hu]
      simp

lemma updateLoop_err_shape :
    ∀ (data : List IncomingData) (db : List GuacRow) (acc : List GuacIp)
      (e : SvcError),
      updateLoop db acc data = .error e →
      ∃ it, it ∈ data ∧ e = .notFound it.old_ip it.old_group := by
  intro data
  induction data with
  | nil =>
    intro db acc e h
    simp only [updateLoop] at h
    simp at h
  | cons item rest ih =>
    intro db acc e h
    simp only [updateLoop] at h
    cases hau : applyUpdate db item with
    | none =>
      rw [hau] at h
      cases h
      exact ⟨item, List.mem_cons_self item rest, rfl⟩
    | some p =>
      rw [hau] at h
      obtain ⟨u, dbx⟩ := p
      obtain ⟨it, hmem, heq⟩ := ih dbx (acc ++ [u]) e h
      exact ⟨it, List.mem_cons_of_mem item hmem, heq⟩

/-- A successful per-item step rewrites the first matching row in place
and leaves every other row unchanged: the storage splits around the
first row matching the old pair, which is rewritten to the new ip and
new group, keeping its other columns. -/
lemma applyUpdate_some_split :
    ∀ (db : List GuacRow) (item : IncomingData) (u : GuacIp)
      (db2 : List GuacRow),
      applyUpdate db item = some (u, db2) →
      ∃ l1 r l2,
        db = l1 ++ r :: l2 ∧
        r.ip = item.old_ip ∧ r.group_name = item.old_group ∧
        (∀ r2 ∈ l1, ¬(r2.ip = item.old_ip ∧ r2.group_name = item.old_group)) ∧
        db2 = l1 ++ { r with ip := item.new_ip, group_name := item.new_group } :: l2 := by
  intro db
  induction db with
  | nil =>
    intro item u db2 h
    simp [applyUpdate] at h
  | cons r rs ih =>
    intro item u db2 h
    simp only [applyUpdate] at h
    by_cases hb : (r.ip == item.old_ip && r.group_name == item.old_group) = true
    · rw [if_pos hb] at h
      rw [Option.some.injEq, Prod.mk.injEq] at h
      obtain ⟨_, hdb2⟩ := h
      have hand : r.ip = item.old_ip ∧ r.group_name = item.old_group := by
        simpa using hb
      refine ⟨[], r, rs, by simp, hand.1, hand.2, by simp, ?_⟩
      rw [← hdb2]
      simp
    · rw [if_neg hb] at h
      cases hau : applyUpdate rs item with
      | none => rw [hau] at h; simp at h
      | some p =>
        rw [hau] at h
        obtain ⟨u2, rs2⟩ := p
        rw [Option.some.injEq, Prod.mk.injEq] at h
        obtain ⟨_, hdb2⟩ := h
        obtain ⟨l1, r0, l2, hsp, h1, h2, h3, h4⟩ := ih item u2 rs2 hau
        refine ⟨r :: l1, r0, l2, by rw [hsp]; rfl, h1, h2, ?_, ?_⟩
        · intro r2 hr2
          rcases List.mem_cons.mp hr2 with he | hm
          · subst he
            intro hand
            apply hb
            rw [hand.1, hand.2]
            simp
          · exact h3 r2 hm
        · rw [← hdb2, h4]
          rfl

/-- The per-item step returns nothing exactly when no row of the
storage matches the old pair of the item. -/
lemma applyUpdate_eq_none_iff (db : List GuacRow) (item : IncomingData) :
    applyUpdate db item = none ↔
      ∀ r ∈ db, ¬(r.ip = item.old_ip ∧ r.group_name = item.old_group) := by
  induction db with
  | nil => simp [applyUpdate]
  | cons r rs ih =>
    simp only [applyUpdate]
    by_cases hb : (r.ip == item.old_ip && r.group_name == item.old_group) = true
    · rw [if_pos hb]
      have hand : r.ip = item.old_ip ∧ r.group_name = item.old_group := by
        simpa using hb
      constructor
      · intro hcontra
        simp at hcontra
      · intro hall
        exact absurd hand (hall r (List.mem_cons_self r rs))
    · rw [if_neg hb]
      have hnr : ¬(r.ip = item.old_ip ∧ r.group_name = item.old_group) := by
        intro hand
        apply hb
        rw [hand.1, hand.2]
        simp
      cases hau : applyUpdate rs item with
      | none =>
        constructor
        · intro _ r2 hr2
          rcases List.mem_cons.mp hr2 with he | hm
          · subst he
            exact hnr
          · exact (ih.mp hau) r2 hm
        · intro _
          rfl
      | some p =>
        obtain ⟨u2, rs2⟩ := p
        constructor
        · intro hcontra
          simp at hcontra
        · intro hall
          exfalso
          have hnone : applyUpdate rs item = none := by
            rw [ih]
            intro r2 hr2
            exact hall r2 (List.mem_cons_of_mem r hr2)
          rw [hau] at hnone
          simp at hnone

/-- Running the update loop over an appended batch first runs the
prefix; a successful prefix run continues from its storage and
accumulator. -/
lemma updateLoop_append :
    ∀ (pre post : List IncomingData) (db : List GuacRow)
      (acc : List GuacIp) (dbMid : List GuacRow) (upsMid : List GuacIp),
      updateLoop db acc pre = .ok (dbMid, upsMid) →
      updateLoop db acc (pre ++ post) = updateLoop dbMid upsMid post := by
  intro pre
  induction pre with
  | nil =>
    intro post db acc dbMid upsMid h
    simp only [updateLoop] at h
    cases h
    rfl
  | cons item pre2 ih =>
    intro post db acc dbMid upsMid h
    simp only [updateLoop] at h
    rw [List.cons_append]
    simp only [updateLoop]
    cases hau : applyUpdate db item with
    | none => simp [hau] at h
    | some p =>
      rw [hau] at h
      obtain ⟨u, dbx⟩ := p
      exact ih post dbx (acc ++ [u]) dbMid upsMid h

/-- A successful run over an appended batch splits into a successful
prefix run and a successful run of the rest from the intermediate
state. -/
lemma updateLoop_ok_split :
    ∀ (pre post : List IncomingData) (db : List GuacRow)
      (acc : List GuacIp) (db2 : List GuacRow) (ups : List GuacIp),
      updateLoop db acc (pre ++ post) = .ok (db2, ups) →
      ∃ dbMid upsMid, updateLoop db acc pre = .ok (dbMid, upsMid) ∧
        updateLoop dbMid upsMid post = .ok (db2, ups) := by
  intro pre
  induction pre with
  | nil =>
    intro post db acc db2 ups h
    exact ⟨db, acc, rfl, h⟩
  | cons item pre2 ih =>
    intro post db acc db2 ups h
    rw [List.cons_append] at h
    simp only [updateLoop] at h ⊢
    cases hau : applyUpdate db item with
    | none => simp [hau] at h
    | some p =>
      rw [hau] at h
      obtain ⟨u, dbx⟩ := p
      exact ih post dbx (acc ++ [u]) db2 ups h

/-- Claim C10: the bulk update is all-or-nothing over its input list,
all updates running inside one transaction.  On success every item has
been applied to storage: at each item, the storage reached at its turn
splits around the first row matching the item old pair, that row is
rewritten in place to the item new ip and new group, and the updated
records are returned in input order.  If the old pair of an item
matches no row of the storage reached at its turn, the whole call
throws the not-found error naming exactly that ip and group, and no
update from the batch is applied.  Every failure is of that shape and
leaves the observable storage unchanged. -/
theorem claim10_bulk_update (db : List GuacRow) (data : List IncomingData) :
    (∀ db2 ups, updateGuacamoleUserAvailableIP db data = .ok (db2, ups) →
       ups = data.map (fun it => (⟨it.new_ip, it.new_group⟩ : GuacIp)) ∧
       ∀ pre item post, data = pre ++ item :: post →
         ∃ dbPre upsPre l1 r l2,
           updateLoop db [] pre = .ok (dbPre, upsPre) ∧
           dbPre = l1 ++ r :: l2 ∧
           r.ip = item.old_ip ∧ r.group_name = item.old_group ∧
           (∀ r2 ∈ l1, ¬(r2.ip = item.old_ip ∧ r2.group_name = item.old_group)) ∧
           updateLoop
             (l1 ++ { r with ip := item.new_ip, group_name := item.new_group } :: l2)
             (upsPre ++ [⟨item.new_ip, item.new_group⟩]) post = .ok (db2, ups)) ∧
    (∀ pre item post dbPre upsPre, data = pre ++ item :: post →
       updateLoop db [] pre = .ok (dbPre, upsPre) →
       (∀ r ∈ dbPre, ¬(r.ip = item.old_ip ∧ r.group_name = item.old_group)) →
       updateGuacamoleUserAvailableIP db data
         = .error (.notFound item.old_ip item.old_group) ∧
       storageAfterUpdate db data = db) ∧
    (∀ e, updateGuacamoleUserAvailableIP db data = .error e →
       storageAfterUpdate db data = db ∧
       ∃ it, it ∈ data ∧ e = .notFound it.old_ip it.old_group) := by
  refine ⟨?_, ?_, ?_⟩
  · intro db2 ups h
    constructor
    · have := updateLoop_ok_shape data db [] db2 ups h
      simpa using this
    · intro pre item post hdata
      subst hdata
      obtain ⟨dbPre, upsPre, hpre, hrest⟩ :=
        updateLoop_ok_split pre (item :: post) db [] db2 ups h
      simp only [updateLoop] at hrest
      cases hau : applyUpdate dbPre item with
      | none => simp [hau] at hrest
      | some p =>
        rw [hau] at hrest
        obtain ⟨u, dbNext⟩ := p
        have hu := applyUpdate_ok_fst dbPre item u dbNext hau
        obtain ⟨l1, r, l2, hsp, h1, h2, h3, h4⟩ :=
          applyUpdate_some_split dbPre item u dbNext hau
        refine ⟨dbPre, upsPre, l1, r, l2, hpre, hsp, h1, h2, h3, ?_⟩
        rw [← h4, ← hu]
        exact hrest
  · intro pre item post dbPre upsPre hdata hpre hnomatch
    subst hdata
    have hmain : updateGuacamoleUserAvailableIP db (pre ++ item :: post)
        = .error (.notFound item.old_ip item.old_group) := by
      unfold updateGuacamoleUserAvailableIP
      rw [updateLoop_append pre (item :: post) db [] dbPre upsPre hpre]
      simp only [updateLoop]
      rw [(applyUpdate_eq_none_iff dbPre item).mpr hnomatch]
    refine ⟨hmain, ?_⟩
    unfold storageAfterUpdate
    rw [hmain]
  · intro e he
    refine ⟨?_, updateLoop_err_shape data db [] e he⟩
    unfold storageAfterUpdate
    rw [he]

/-- Claim C10 witness: a concrete two-item batch whose first item
succeeds and whose second item matches no row at its turn: the call
throws the not-found error naming that pair and the storage is
unchanged. -/
theorem claim10_witness :
    updateGuacamoleUserAvailableIP [⟨"1.1.1.1", "g", 0, none⟩]
        [⟨"1.1.1.1", "2.2.2.2", "g", "h"⟩, ⟨"3.3.3.3", "4.4.4.4", "g", "g"⟩]
      = .error (.notFound "3.3.3.3" "g") ∧
    storageAfterUpdate [⟨"1.1.1.1", "g", 0, none⟩]
        [⟨"1.1.1.1", "2.2.2.2", "g", "h"⟩, ⟨"3.3.3.3", "4.4.4.4", "g", "g"⟩]
      = [⟨"1.1.1.1", "g", 0, none⟩] :=
  (claim10_bulk_update [⟨"1.1.1.1", "g", 0, none⟩]
      [⟨"1.1.1.1", "2.2.2.2", "g", "h"⟩, ⟨"3.3.3.3", "4.4.4.4", "g", "g"⟩]).2.1
    [⟨"1.1.1.1", "2.2.2.2", "g", "h"⟩] ⟨"3.3.3.3", "4.4.4.4", "g", "g"⟩ []
    [⟨"2.2.2.2", "h", 0, none⟩] [⟨"2.2.2.2", "h"⟩] (by decide) (by decide)
    (by decide)

end GuacAlloc
